import Mathlib

/-!
Verification development for the Shopmonkey appointment-booking middleware.

Instants are modelled as JavaScript `Date` values: integer milliseconds since
the Unix epoch (`Int`).  Remote-store collaborators (appointment, customer and
vehicle search/create operations) are modelled as pure functions over explicit
list-valued stores, following the contracts in the design document (section 6).
All definitions mirror the JavaScript source; functions keep their source names.
-/

/-- Shop-local time components, as produced by the `Intl.DateTimeFormat`
conversion in `getShopTimeDetails`: `weekday` uses 0 = Sunday .. 6 = Saturday. -/
structure ShopTime where
  year : Int
  month : Int
  day : Int
  weekday : Int
  hour : Int
  minute : Int
deriving DecidableEq, Repr

/-- Civil date (year, month, day) from a count of days since 1970-01-01,
proleptic Gregorian calendar (standard days-to-civil algorithm). -/
def civilFromDays (z0 : Int) : Int × Int × Int :=
  let z := z0 + 719468
  let era := Int.ediv z 146097
  let doe := z - era * 146097
  let yoe := Int.ediv (doe - Int.ediv doe 1460 + Int.ediv doe 36524 - Int.ediv doe 146096) 365
  let y := yoe + era * 400
  let doy := doe - (365 * yoe + Int.ediv yoe 4 - Int.ediv yoe 100)
  let mp := Int.ediv (5 * doy + 2) 153
  let d := doy - Int.ediv (153 * mp + 2) 5 + 1
  let m := mp + (if mp < 10 then 3 else -9)
  (y + (if m ≤ 2 then 1 else 0), m, d)

/-- Days since 1970-01-01 of a civil date (inverse of `civilFromDays`). -/
def daysFromCivil (y0 m d : Int) : Int :=
  let y := y0 - (if m ≤ 2 then 1 else 0)
  let era := Int.ediv y 400
  let yoe := y - era * 400
  let mp := m + (if m > 2 then -3 else 9)
  let doy := Int.ediv (153 * mp + 2) 5 + d - 1
  let doe := yoe * 365 + Int.ediv yoe 4 - Int.ediv yoe 100 + doy
  era * 146097 + doe - 719468

/-- Day of month of the first Sunday of month `m` in year `y`. -/
def firstSundayOfMonth (y m : Int) : Int :=
  let dowFirst := Int.emod (daysFromCivil y m 1 + 4) 7
  1 + Int.emod (7 - dowFirst) 7

/-- Whether Pacific Daylight Time is in effect at UTC instant `t` (epoch ms),
under the post-2007 US rule used by the `America/Los_Angeles` timezone data:
DST runs from the second Sunday of March 02:00 PST (10:00 UTC) to the first
Sunday of November 02:00 PDT (09:00 UTC). -/
def isPDT (t : Int) : Bool :=
  let utcDays := Int.ediv t 86400000
  let y := (civilFromDays utcDays).1
  let dstStart := daysFromCivil y 3 (firstSundayOfMonth y 3 + 7) * 86400000 + 36000000
  let dstEnd := daysFromCivil y 11 (firstSundayOfMonth y 11) * 86400000 + 32400000
  decide (dstStart ≤ t ∧ t < dstEnd)

/-- `getShopTimeDetails` (part_001): breaks a UTC instant into the shop's
local-timezone components via real timezone conversion for
`SHOP_TIMEZONE = "America/Los_Angeles"` (UTC-8, or UTC-7 during DST). -/
def getShopTimeDetails (t : Int) : ShopTime :=
  let offsetMin : Int := if isPDT t then -420 else -480
  let localMs := t + offsetMin * 60000
  let days := Int.ediv localMs 86400000
  let msOfDay := Int.emod localMs 86400000
  let c := civilFromDays days
  { year := c.1, month := c.2.1, day := c.2.2,
    weekday := Int.emod (days + 4) 7,
    hour := Int.ediv msOfDay 3600000,
    minute := Int.emod (Int.ediv msOfDay 60000) 60 }

/-- `getShopHourAndDay` (server.js / part_000): shop-local hour and weekday of
a UTC instant, via the same `Intl` timezone conversion. -/
def getShopHourAndDay (t : Int) : Int × Int :=
  ((getShopTimeDetails t).hour, (getShopTimeDetails t).weekday)

/-- The JavaScript `String.prototype.toLowerCase` method, character-wise. -/
def jsToLowerCase (s : String) : String := String.mk (s.data.map Char.toLower)

/-- The JavaScript `String.prototype.trim` method: strip leading and trailing
whitespace. -/
def jsTrim (s : String) : String :=
  String.mk (((s.data.dropWhile Char.isWhitespace).reverse.dropWhile Char.isWhitespace).reverse)

/-- The JavaScript `String.prototype.startsWith` method. -/
def jsStartsWith (s pre : String) : Bool := pre.data.isPrefixOf s.data

/-- `normalizeToE164` (server.js / part_000 / part_001): canonicalizes a raw
phone string.  A falsy (empty) input short-circuits to `""`; otherwise all
non-digit characters are stripped and the three prefix rules applied.  The two
final JavaScript branches both return `"+" ++ digits`. -/
def normalizeToE164 (phone : String) : String :=
  if phone = "" then ""
  else
    let digitsOnly := String.mk (phone.data.filter Char.isDigit)
    if digitsOnly.length = 10 then "+1" ++ digitsOnly
    else if digitsOnly.length = 11 ∧ jsStartsWith digitsOnly "1" = true then "+" ++ digitsOnly
    else if jsStartsWith (jsTrim phone) "+" = true then "+" ++ digitsOnly
    else "+" ++ digitsOnly

/-- The spec's three ordered E.164 rules (section 4.1), as written: strip
non-digits, then 10 digits ↦ `+1…`, 11 digits starting with 1 ↦ `+…`,
otherwise `+` prefixed to the digit string as-is.  Stated without any
empty-input guard, exactly as the contract reads. -/
def normalizeRulesSpec (phone : String) : String :=
  let digitsOnly := String.mk (phone.data.filter Char.isDigit)
  if digitsOnly.length = 10 then "+1" ++ digitsOnly
  else if digitsOnly.length = 11 ∧ jsStartsWith digitsOnly "1" = true then "+" ++ digitsOnly
  else "+" ++ digitsOnly

/-- Inner loop of `levenshteinDistance`'s row update (part_000 lines 648-662):
produces the entries `matrix[i][1..]` of a row from the previous row's tail
(`up :: prest`), the previous row's entry one column back (`diag`) and the
current row's entry one column back (`left`).  The JavaScript takes
`min(diag + 1, min(left + 1, up + 1))`, i.e. `1 + min diag (min left up)`. -/
def nextRowGo (bc : Char) : List Char → List Nat → Nat → Nat → List Nat
  | ac :: arest, up :: prest, diag, left =>
    let cur := if bc = ac then diag else 1 + min diag (min left up)
    cur :: nextRowGo bc arest prest up cur
  | _, _, _, _ => []

/-- One full row update of the Levenshtein matrix: `matrix[i][0] = i`
(one more than the previous row's first entry), then the inner loop. -/
def nextRow (bc : Char) (a : List Char) (prev : List Nat) : List Nat :=
  match prev with
  | p0 :: rest => (p0 + 1) :: nextRowGo bc a rest p0 (p0 + 1)
  | [] => []

/-- `levenshteinDistance` (part_000 lines 637-665): dynamic-programming edit
distance.  Row 0 is `[0, 1, ..., a.length]`; one row is produced per character
of `b`; the result is `matrix[b.length][a.length]`, the last entry of the
final row. -/
def levenshteinDistance (s1 s2 : String) : Nat :=
  let a := s1.data
  let b := s2.data
  (b.foldl (fun row bc => nextRow bc a row) (List.range (a.length + 1))).getLastD 0

/-- `isFuzzyMatch` (part_000 lines 667-679): falsy (empty) inputs never match;
otherwise lowercase and trim both strings, short-circuit on equality, and
accept iff the edit distance is at most `floor(min(len, len) / 3)`. -/
def isFuzzyMatch (str1 str2 : String) : Bool :=
  if str1 = "" || str2 = "" then false
  else
    let s1 := jsTrim (jsToLowerCase str1)
    let s2 := jsTrim (jsToLowerCase str2)
    if s1 = s2 then true
    else
      let maxEdits := min s1.length s2.length / 3
      decide (levenshteinDistance s1 s2 ≤ maxEdits)

/-- The classic Levenshtein distance, written as the textbook recursion with
unit-cost single-character insertion, deletion and substitution.  This is the
spec-side definition (section 4.2) against which the matrix implementation is
verified. -/
def levSpec : List Char → List Char → Nat
  | [], ys => ys.length
  | x :: xs, [] => (x :: xs).length
  | x :: xs, y :: ys =>
    if x = y then levSpec xs ys
    else 1 + min (levSpec xs ys) (min (levSpec (x :: xs) ys) (levSpec xs (y :: ys)))
termination_by xs ys => xs.length + ys.length
decreasing_by all_goals (simp only [List.length_cons]; omega)

/-- Row `i` of the Levenshtein matrix, described through `levSpec`: the entry
for column `j` is the distance between the reversal of the first `j` characters
of `a` (accumulated in `racc`) and `rp`, the reversal of the processed prefix
of `b`. -/
def rowFrom (rp : List Char) : List Char → List Char → List Nat
  | racc, [] => [levSpec racc rp]
  | racc, ac :: arest => levSpec racc rp :: rowFrom rp (ac :: racc) arest

/-- An appointment record as projected by the core (spec section 3); `status`
distinguishes `"Canceled"` from active states. -/
structure AppointmentRecord where
  id : String
  customerId : String
  vehicleId : String
  locationId : String
  name : String
  startDate : Int
  endDate : Int
  status : String
deriving DecidableEq, Repr

/-- A customer record held by the remote store, keyed externally by canonical
phone numbers (spec section 3). -/
structure CustomerRecord where
  id : String
  firstName : String
  lastName : String
  phoneNumbers : List String
deriving DecidableEq, Repr

/-- A vehicle record held by the remote store (spec section 3). -/
structure VehicleRecord where
  id : String
  customerId : String
  make : String
  model : String
deriving DecidableEq, Repr

/-- The process-wide `LOCATION_ID` environment constant. -/
def LOCATION_ID : String := "loc-1"

/-- Modelled from the spec: the remote `searchCustomerByPhone` operation
(section 6) behind `/customer/phone_number/search`, which is not part of this
repository.  It returns the customers whose phone-number list contains the
queried number, in store order. -/
def searchCustomerByPhone (e164 : String) (store : List CustomerRecord) :
    List CustomerRecord :=
  store.filter (fun c => decide (e164 ∈ c.phoneNumbers))

/-- `findCustomerByPhone` (part_000 lines 681-692): normalizes the phone and
returns the first customer the remote search yields, if any. -/
def findCustomerByPhone (phone : String) (store : List CustomerRecord) :
    Option CustomerRecord :=
  let e164Phone := normalizeToE164 phone
  (searchCustomerByPhone e164Phone store).head?

/-- `findOrCreateCustomer` (part_000 lines 694-725): search by canonical phone;
if found return the record unmodified with `wasCreated = false`, otherwise
split the name on spaces into first/rest and create a new record carrying the
normalized phone as its (primary) number.  The remote create (modelled from the
spec, section 6) assigns a fresh id and appends the record to the store. -/
def findOrCreateCustomer (name phone : String) (store : List CustomerRecord) :
    (CustomerRecord × Bool) × List CustomerRecord :=
  match findCustomerByPhone phone store with
  | some existingCustomer => ((existingCustomer, false), store)
  | none =>
    let e164Phone := normalizeToE164 phone
    let parts := name.splitOn " "
    let firstName := parts.headD ""
    let newCustomer : CustomerRecord :=
      { id := "cust-" ++ toString store.length
        firstName := if firstName = "" then "N/A" else firstName
        lastName := String.intercalate " " parts.tail
        phoneNumbers := [e164Phone] }
    ((newCustomer, true), store ++ [newCustomer])

/-- `findOrCreateVehicle` (part_000 lines 727-759): list the customer's
vehicles, take the first whose make and model both fuzzy-match, else create;
the remote create (modelled from the spec, section 6) assigns a fresh id. -/
def findOrCreateVehicle (customerId make model : String)
    (store : List VehicleRecord) : (VehicleRecord × Bool) × List VehicleRecord :=
  let vehicles := store.filter (fun v => decide (v.customerId = customerId))
  match vehicles.find? (fun v => isFuzzyMatch v.make make && isFuzzyMatch v.model model) with
  | some existingVehicle => ((existingVehicle, false), store)
  | none =>
    let newVehicle : VehicleRecord :=
      { id := "veh-" ++ toString store.length, customerId := customerId,
        make := make, model := model }
    ((newVehicle, true), store ++ [newVehicle])

/-- `findAppointmentByDate` (part_000 lines 761-784): fetch the customer's
non-Canceled appointments (remote page limit 50) and return the one whose
start instant is exactly the target. -/
def findAppointmentByDate (customerId : String) (targetDate : Int)
    (store : List AppointmentRecord) : Option AppointmentRecord :=
  let appointments := (store.filter (fun a =>
    decide (a.customerId = customerId ∧ a.status ≠ "Canceled"))).take 50
  appointments.find? (fun a => decide (a.startDate = targetDate))

/-- `checkSlotAvailability` (part_000 lines 796-827): fetch non-Canceled
appointments of the location whose `startDate` lies in `start ± 24h` (remote
page limit 100), skip the excluded appointment -- the JavaScript guard
`excludeAppointmentId && appt.id === excludeAppointmentId` only skips when the
exclusion id is truthy, i.e. non-empty -- and report the slot free iff no
fetched appointment satisfies the half-open overlap predicate. -/
def checkSlotAvailability (start endT : Int) (excludeAppointmentId : Option String)
    (store : List AppointmentRecord) : Bool :=
  let searchStartWindow := start - 86400000
  let searchEndWindow := start + 86400000
  let potentialConflicts := (store.filter (fun a =>
    decide (a.locationId = LOCATION_ID ∧ searchStartWindow ≤ a.startDate ∧
      a.startDate ≤ searchEndWindow ∧ a.status ≠ "Canceled"))).take 100
  let conflictingAppointment := potentialConflicts.find? (fun a =>
    let excluded := match excludeAppointmentId with
      | some e => decide (e ≠ "" ∧ a.id = e)
      | none => false
    if excluded then false else decide (a.startDate < endT ∧ start < a.endDate))
  conflictingAppointment.isNone

/-- A `/booking` request after HTTP parsing: the five string fields plus the
already-parsed start instant (the handler's `isNaN` date check models the
parser rejecting unreadable dates before this point). -/
structure BookingRequest where
  phone : String
  make : String
  model : String
  title : String
  name : String
  startDate : Int
deriving Repr

inductive BookingOutcome where
  | invalidInput
  | conflict
  | booked
deriving DecidableEq, Repr

/-- `/booking` handler (part_000 lines 181-300, identically part_001 lines
275-394): validate fields, fetch non-Canceled appointments of the location
with `startDate` in `start ± 24h` (limit 100), reject 409 on any half-open
overlap, else find-or-create customer and vehicle and create the appointment
`[start, start + 30min)`.  The remote store (modelled from the spec, section
4.7) initializes a created appointment in the `Scheduled` state. -/
def bookingHandler (req : BookingRequest) (st :
    List AppointmentRecord × List CustomerRecord × List VehicleRecord) :
    BookingOutcome × List AppointmentRecord × List CustomerRecord × List VehicleRecord :=
  if req.phone = "" ∨ req.make = "" ∨ req.model = "" ∨ req.title = "" ∨ req.name = "" then
    (BookingOutcome.invalidInput, st)
  else
    let start := req.startDate
    let endT := start + 1800000
    let searchStartWindow := start - 86400000
    let searchEndWindow := start + 86400000
    let potentialConflicts := (st.1.filter (fun a =>
      decide (a.locationId = LOCATION_ID ∧ searchStartWindow ≤ a.startDate ∧
        a.startDate ≤ searchEndWindow ∧ a.status ≠ "Canceled"))).take 100
    match potentialConflicts.find? (fun a => decide (a.startDate < endT ∧ start < a.endDate)) with
    | some _ => (BookingOutcome.conflict, st)
    | none =>
      let c := findOrCreateCustomer req.name req.phone st.2.1
      let customerData := c.1.1
      let v := findOrCreateVehicle customerData.id req.make req.model st.2.2
      let vehicleData := v.1.1
      let vehicleString := (vehicleData.make ++ " " ++ vehicleData.model).trim
      let appointmentTitle := customerData.firstName ++ " " ++
        (if customerData.lastName ≠ "" then customerData.lastName.take 1 ++ "." else "") ++
        " / " ++ vehicleString ++ " / " ++ req.title
      let newAppointment : AppointmentRecord :=
        { id := "appt-" ++ toString st.1.length
          customerId := customerData.id
          vehicleId := vehicleData.id
          locationId := LOCATION_ID
          name := appointmentTitle
          startDate := start
          endDate := endT
          status := "Scheduled" }
      (BookingOutcome.booked, (st.1 ++ [newAppointment], c.2, v.2))

inductive UpdateOutcome where
  | invalidInput
  | customerNotFound
  | appointmentNotFound
  | conflict
  | updated
deriving DecidableEq, Repr

/-- `/update-appointment` handler (part_000 lines 382-419): look the customer
up by phone, locate the appointment by exact original start instant, check the
new `[newDate, newDate + 30min)` slot with the handler's own appointment id as
exclusion, and on success push the new start/end to the remote record. -/
def updateAppointmentHandler (phone : String) (originalDate newDate : Int)
    (st : List AppointmentRecord × List CustomerRecord) :
    UpdateOutcome × List AppointmentRecord :=
  if phone = "" then (UpdateOutcome.invalidInput, st.1)
  else
    match findCustomerByPhone phone st.2 with
    | none => (UpdateOutcome.customerNotFound, st.1)
    | some customer =>
      match findAppointmentByDate customer.id originalDate st.1 with
      | none => (UpdateOutcome.appointmentNotFound, st.1)
      | some appointment =>
        let start := newDate
        let endT := start + 1800000
        if checkSlotAvailability start endT (some appointment.id) st.1 then
          (UpdateOutcome.updated, st.1.map (fun a =>
            if a.id = appointment.id then { a with startDate := start, endDate := endT } else a))
        else (UpdateOutcome.conflict, st.1)

/-- Fuel-driven loop behind `halfHourSteps`; the fuel only bounds the number of
iterations, the `cur < endT` guard decides termination exactly as the
JavaScript `while` loop does. -/
def halfHourStepsGo (endT : Int) : Nat → Int → List Int
  | 0, _ => []
  | fuel + 1, cur => if cur < endT then cur :: halfHourStepsGo endT fuel (cur + 1800000) else []

/-- The `while (currentTime < endTime) { ...; currentTime += 30min }` loop of
the availability handlers: every visited candidate start instant, in order. -/
def halfHourSteps (cur endT : Int) : List Int :=
  halfHourStepsGo endT (endT - cur).toNat cur

/-- The slot pipeline shared verbatim by the two range-mode
`/check-availability` handlers (server.js lines 190-215, part_000 lines
114-152): walk the range in 30-minute steps, keep slots whose shop-local
weekday is Mon-Fri and hour in [9, 17), then drop slots overlapping an
existing appointment under the half-open predicate. -/
def rangeModeSlots (startRange endRange durationMinutes : Int)
    (existingAppointments : List AppointmentRecord) : List Int :=
  let potentialSlots := (halfHourSteps startRange endRange).filter (fun t =>
    let hd := getShopHourAndDay t
    decide (0 < hd.2 ∧ hd.2 < 6 ∧ 9 ≤ hd.1 ∧ hd.1 < 17))
  potentialSlots.filter (fun slotStart =>
    let slotEnd := slotStart + durationMinutes * 60000
    !(existingAppointments.any (fun appt =>
      decide (appt.startDate < slotEnd ∧ appt.endDate > slotStart))))

/-- `/check-availability` (server.js lines 170-226): fetches the location's
appointments inside the range with NO status filter -- Canceled appointments
are fetched too -- then runs the range-mode pipeline with the caller-supplied
duration. -/
def checkAvailabilityServer (startRange endRange durationMinutes : Int)
    (store : List AppointmentRecord) : List Int :=
  let existingAppointments := store.filter (fun a =>
    decide (a.locationId = LOCATION_ID ∧ startRange ≤ a.startDate ∧ a.endDate ≤ endRange))
  rangeModeSlots startRange endRange durationMinutes existingAppointments

/-- `/check-availability` (part_000 lines 86-178): same pipeline, but the fetch
carries `status: { _neq: "Canceled" }` and the duration is fixed to 30. -/
def checkAvailabilityPart000 (startRange endRange : Int)
    (store : List AppointmentRecord) : List Int :=
  let existingAppointments := store.filter (fun a =>
    decide (a.locationId = LOCATION_ID ∧ startRange ≤ a.startDate ∧
      a.endDate ≤ endRange ∧ a.status ≠ "Canceled"))
  rangeModeSlots startRange endRange 30 existingAppointments

/-- The grid alignment of part_001 (lines 160-161): `setMinutes(60,0,0)` past
the half hour, `setMinutes(30,0,0)` past the hour, untouched at a full hour.
Modelled for a server runtime on UTC (the `Date.getMinutes` clock);
in the handler it is applied to an instant with minute and second zero, where
it is the identity. -/
def alignToHalfHour (t : Int) : Int :=
  let minute := Int.emod (Int.ediv t 60000) 60
  let hourStart := t - Int.emod t 3600000
  if minute > 30 then hourStart + 3600000
  else if minute > 0 then hourStart + 1800000
  else t

/-- Business-hours policy of part_001 (lines 178-200): Mon-Fri 08:00-16:30,
Saturday 09:00-11:00, closed Sunday; returned as
`(isOpen, openMinutes, closeMinutes)`. -/
def businessHoursPart001 (shopTime : ShopTime) : Bool × Int × Int :=
  if 1 ≤ shopTime.weekday ∧ shopTime.weekday ≤ 5 then (true, 480, 990)
  else if shopTime.weekday = 6 then (true, 540, 660)
  else (false, 0, 0)

/-- `/check-availability` (part_001 lines 87-270), single-day mode: determine
the shop-local target date of the reference instant, scan `baseDate ± 18h`
(base = same UTC day at 12:00 UTC) in 30-minute steps, and keep a candidate
iff its shop-local date equals the target date, it passes that weekday's
business hours, Saturday slots start at least 24h after `currentNow`, and it
does not overlap a fetched appointment. -/
def checkAvailabilityPart001 (currentNow startRange : Int)
    (store : List AppointmentRecord) : List Int :=
  let shopDate := getShopTimeDetails startRange
  let targetDate := (shopDate.year, shopDate.month, shopDate.day)
  let baseDate := Int.ediv startRange 86400000 * 86400000 + 43200000
  let searchLoopStart := baseDate - 64800000
  let searchLoopEnd := baseDate + 64800000
  let existingAppointments := (store.filter (fun a =>
    decide (a.locationId = LOCATION_ID ∧ searchLoopStart ≤ a.startDate ∧
      a.endDate ≤ searchLoopEnd ∧ a.status ≠ "Canceled"))).take 100
  (halfHourSteps (alignToHalfHour searchLoopStart) searchLoopEnd).filter (fun slotTime =>
    let shopTime := getShopTimeDetails slotTime
    let hoursPolicy := businessHoursPart001 shopTime
    let slotMinutes := shopTime.hour * 60 + shopTime.minute
    let candidateEnd := slotTime + 1800000
    decide ((shopTime.year, shopTime.month, shopTime.day) = targetDate) &&
    (hoursPolicy.1 && decide (hoursPolicy.2.1 ≤ slotMinutes ∧ slotMinutes < hoursPolicy.2.2)) &&
    !(decide (shopTime.weekday = 6) && decide (slotTime - currentNow < 86400000)) &&
    !(existingAppointments.any (fun appt =>
      decide (appt.startDate < candidateEnd ∧ appt.endDate > slotTime))))

/-- Fixture: an active appointment `[10:00Z, 10:30Z)` on 2025-11-25 at the
location. -/
def apptA1 : AppointmentRecord :=
  ⟨"a1", "c1", "v1", LOCATION_ID, "appt", 1764064800000, 1764066600000, "Scheduled"⟩

/-- Fixture: a customer reachable at +1 555 123 4567. -/
def custJohn : CustomerRecord := ⟨"c1", "John", "Doe", ["+15551234567"]⟩

theorem levSpec_nil_left (ys : List Char) : levSpec [] ys = ys.length := by
  simp [levSpec]

theorem levSpec_nil_right (xs : List Char) : levSpec xs [] = xs.length := by
  cases xs <;> simp [levSpec]

theorem levSpec_cons_cons (x y : Char) (xs ys : List Char) :
    levSpec (x :: xs) (y :: ys) =
      if x = y then levSpec xs ys
      else 1 + min (levSpec xs ys) (min (levSpec (x :: xs) ys) (levSpec xs (y :: ys))) := by
  rw [levSpec]

theorem rowFrom_eq_cons (rp racc a) :
    rowFrom rp racc a = levSpec racc rp :: (rowFrom rp racc a).tail := by
  cases a <;> rfl

theorem rowFrom_init (a : List Char) : ∀ racc : List Char,
    rowFrom [] racc a = List.range' racc.length (a.length + 1) := by
  induction a with
  | nil => intro racc; simp [rowFrom, levSpec_nil_right, List.range']
  | cons ac arest ih =>
    intro racc
    rw [rowFrom, List.range'_succ, ih (ac :: racc)]
    simp [levSpec_nil_right]

theorem nextRowGo_spec (bc : Char) (rp : List Char) : ∀ (a racc : List Char),
    nextRowGo bc a ((rowFrom rp racc a).tail) (levSpec racc rp) (levSpec racc (bc :: rp)) =
      (rowFrom (bc :: rp) racc a).tail := by
  intro a
  induction a with
  | nil => intro racc; rfl
  | cons ac arest ih =>
    intro racc
    show nextRowGo bc (ac :: arest) (rowFrom rp (ac :: racc) arest)
        (levSpec racc rp) (levSpec racc (bc :: rp)) = rowFrom (bc :: rp) (ac :: racc) arest
    rw [rowFrom_eq_cons rp (ac :: racc) arest, nextRowGo]
    have hcur : (if bc = ac then levSpec racc rp
        else 1 + min (levSpec racc rp) (min (levSpec racc (bc :: rp)) (levSpec (ac :: racc) rp))) =
        levSpec (ac :: racc) (bc :: rp) := by
      rw [levSpec_cons_cons]
      by_cases h : bc = ac
      · subst h; simp
      · simp only [if_neg h, if_neg (Ne.symm h)]
        rw [Nat.min_comm (levSpec racc (bc :: rp))]
    rw [hcur, ih (ac :: racc), ← rowFrom_eq_cons]

theorem nextRow_spec (bc : Char) (rp a : List Char) :
    nextRow bc a (rowFrom rp [] a) = rowFrom (bc :: rp) [] a := by
  rw [rowFrom_eq_cons rp [] a, nextRow]
  have h1 : levSpec [] rp + 1 = levSpec [] (bc :: rp) := by
    simp [levSpec_nil_left]
  rw [h1, nextRowGo_spec bc rp a [], ← rowFrom_eq_cons]

theorem foldl_nextRow_spec (a : List Char) : ∀ (b rp : List Char),
    b.foldl (fun row bc => nextRow bc a row) (rowFrom rp [] a) =
      rowFrom (b.reverse ++ rp) [] a := by
  intro b
  induction b with
  | nil => intro rp; rfl
  | cons bc brest ih =>
    intro rp
    rw [List.foldl_cons, nextRow_spec bc rp a, ih (bc :: rp)]
    simp

theorem rowFrom_getLastD (rp : List Char) : ∀ (a racc : List Char) (d : Nat),
    (rowFrom rp racc a).getLastD d = levSpec (a.reverse ++ racc) rp := by
  intro a
  induction a with
  | nil => intro racc d; simp [rowFrom]
  | cons ac arest ih =>
    intro racc d
    rw [rowFrom, List.getLastD_cons, ih (ac :: racc)]
    simp

theorem levenshteinDistance_eq_rev (s1 s2 : String) :
    levenshteinDistance s1 s2 = levSpec s1.data.reverse s2.data.reverse := by
  have hinit : rowFrom [] [] s1.data = List.range (s1.data.length + 1) := by
    rw [rowFrom_init]
    simp [List.range_eq_range']
  show (List.foldl (fun row bc => nextRow bc s1.data row)
      (List.range (s1.data.length + 1)) s2.data).getLastD 0 = _
  rw [← hinit, foldl_nextRow_spec, rowFrom_getLastD]
  simp

theorem levSpec_append_aux (x y : Char) : ∀ (n : Nat) (xs ys : List Char),
    xs.length + ys.length ≤ n →
    levSpec (xs ++ [x]) (ys ++ [y]) =
      if x = y then levSpec xs ys
      else 1 + min (levSpec xs ys) (min (levSpec (xs ++ [x]) ys) (levSpec xs (ys ++ [y]))) := by
  intro n
  induction n with
  | zero =>
    intro xs ys h
    have hxs : xs = [] := by cases xs <;> simp_all
    have hys : ys = [] := by cases ys <;> simp_all
    subst hxs; subst hys
    by_cases hxy : x = y <;>
      simp [levSpec_cons_cons, levSpec_nil_left, levSpec_nil_right, hxy]
  | succ n ih =>
    intro xs ys h
    rcases xs with _ | ⟨x0, xs'⟩ <;> rcases ys with _ | ⟨y0, ys'⟩
    · by_cases hxy : x = y <;>
        simp [levSpec_cons_cons, levSpec_nil_left, levSpec_nil_right, hxy]
    · have ihb := ih [] ys' (by simp only [List.length_nil, List.length_cons] at h ⊢; omega)
      simp only [List.nil_append] at ihb ⊢
      simp only [List.cons_append]
      rw [levSpec_cons_cons x y0 [] (ys' ++ [y]), levSpec_cons_cons x y0 [] ys', ihb]
      simp only [levSpec_nil_left, List.length_cons, List.length_append,
        List.length_nil]
      by_cases h1 : x = y0
      · by_cases h2 : x = y
        · simp only [if_pos h1, if_pos h2]
        · simp only [if_pos h1, if_neg h2]; omega
      · by_cases h2 : x = y
        · simp only [if_neg h1, if_pos h2]; omega
        · simp only [if_neg h1, if_neg h2]
    · have ihc := ih xs' [] (by simp only [List.length_nil, List.length_cons] at h ⊢; omega)
      simp only [List.nil_append] at ihc ⊢
      simp only [List.cons_append]
      rw [levSpec_cons_cons x0 y (xs' ++ [x]) [], levSpec_cons_cons x0 y xs' [], ihc]
      simp only [levSpec_nil_right, List.length_cons, List.length_append,
        List.length_nil]
      by_cases h1 : x0 = y
      · by_cases h2 : x = y
        · simp only [if_pos h1, if_pos h2]
        · simp only [if_pos h1, if_neg h2]; omega
      · by_cases h2 : x = y
        · simp only [if_neg h1, if_pos h2]; omega
        · simp only [if_neg h1, if_neg h2]
    · have ih1 := ih xs' ys' (by simp only [List.length_nil, List.length_cons] at h ⊢; omega)
      have ih2 := ih (x0 :: xs') ys' (by simp only [List.length_nil, List.length_cons] at h ⊢; omega)
      have ih3 := ih xs' (y0 :: ys') (by simp only [List.length_nil, List.length_cons] at h ⊢; omega)
      simp only [List.cons_append] at ih2 ih3 ⊢
      rw [levSpec_cons_cons x0 y0 (xs' ++ [x]) (ys' ++ [y]), ih1, ih2, ih3,
        levSpec_cons_cons x0 y0 xs' ys',
        levSpec_cons_cons x0 y0 (xs' ++ [x]) ys',
        levSpec_cons_cons x0 y0 xs' (ys' ++ [y])]
      by_cases h1 : x0 = y0
      · by_cases h2 : x = y
        · simp only [if_pos h1, if_pos h2]
        · simp only [if_pos h1, if_neg h2]
      · by_cases h2 : x = y
        · simp only [if_neg h1, if_pos h2]
        · simp only [if_neg h1, if_neg h2]
          clear ih h
          generalize levSpec xs' ys' = A
          generalize levSpec (x0 :: xs') ys' = B
          generalize levSpec xs' (y0 :: ys') = C
          generalize levSpec (xs' ++ [x]) ys' = D
          generalize levSpec xs' (ys' ++ [y]) = E
          generalize levSpec (x0 :: (xs' ++ [x])) ys' = K
          generalize levSpec (x0 :: xs') (ys' ++ [y]) = M
          generalize levSpec (xs' ++ [x]) (y0 :: ys') = N
          generalize levSpec xs' (y0 :: (ys' ++ [y])) = O
          rw [min_add_add_left, min_add_add_left, min_add_add_left, min_add_add_left]
          refine congrArg (fun z => 1 + (1 + z)) ?_
          ac_rfl

theorem levSpec_append (x y : Char) (xs ys : List Char) :
    levSpec (xs ++ [x]) (ys ++ [y]) =
      if x = y then levSpec xs ys
      else 1 + min (levSpec xs ys) (min (levSpec (xs ++ [x]) ys) (levSpec xs (ys ++ [y]))) :=
  levSpec_append_aux x y (xs.length + ys.length) xs ys le_rfl

theorem levSpec_reverse_aux : ∀ (n : Nat) (xs ys : List Char),
    xs.length + ys.length ≤ n → levSpec xs.reverse ys.reverse = levSpec xs ys := by
  intro n
  induction n with
  | zero =>
    intro xs ys h
    have hxs : xs = [] := by cases xs <;> simp_all
    have hys : ys = [] := by cases ys <;> simp_all
    subst hxs; subst hys; rfl
  | succ n ih =>
    intro xs ys h
    rcases xs with _ | ⟨x0, xs'⟩
    · simp [levSpec_nil_left]
    rcases ys with _ | ⟨y0, ys'⟩
    · simp [levSpec_nil_right]
    have ih1 := ih xs' ys' (by simp only [List.length_nil, List.length_cons] at h ⊢; omega)
    have ih2 := ih (x0 :: xs') ys' (by simp only [List.length_nil, List.length_cons] at h ⊢; omega)
    have ih3 := ih xs' (y0 :: ys') (by simp only [List.length_nil, List.length_cons] at h ⊢; omega)
    rw [List.reverse_cons, List.reverse_cons, levSpec_append,
      levSpec_cons_cons, ← List.reverse_cons, ← List.reverse_cons,
      ih1, ih2, ih3]

theorem levSpec_reverse (xs ys : List Char) :
    levSpec xs.reverse ys.reverse = levSpec xs ys :=
  levSpec_reverse_aux (xs.length + ys.length) xs ys le_rfl

/-- The matrix implementation computes the classic Levenshtein distance. -/
theorem levenshteinDistance_eq_levSpec (s1 s2 : String) :
    levenshteinDistance s1 s2 = levSpec s1.data s2.data :=
  (levenshteinDistance_eq_rev s1 s2).trans (levSpec_reverse s1.data s2.data)

theorem levSpec_eq_zero_aux : ∀ (n : Nat) (xs ys : List Char),
    xs.length + ys.length ≤ n → (levSpec xs ys = 0 ↔ xs = ys) := by
  intro n
  induction n with
  | zero =>
    intro xs ys h
    have hxs : xs = [] := by cases xs <;> simp_all
    have hys : ys = [] := by cases ys <;> simp_all
    subst hxs; subst hys; simp [levSpec_nil_left]
  | succ n ih =>
    intro xs ys h
    rcases xs with _ | ⟨x0, xs'⟩
    · simp [levSpec_nil_left, eq_comm, List.length_eq_zero]
    rcases ys with _ | ⟨y0, ys'⟩
    · simp [levSpec_nil_right]
    have ih1 := ih xs' ys' (by simp only [List.length_nil, List.length_cons] at h ⊢; omega)
    rw [levSpec_cons_cons]
    by_cases h1 : x0 = y0
    · rw [if_pos h1, ih1, h1]
      simp
    · rw [if_neg h1]
      simp [h1]

theorem levSpec_eq_zero_iff (xs ys : List Char) : levSpec xs ys = 0 ↔ xs = ys :=
  levSpec_eq_zero_aux (xs.length + ys.length) xs ys le_rfl

theorem halfHourStepsGo_mem {endT : Int} : ∀ {fuel : Nat} {cur x : Int},
    x ∈ halfHourStepsGo endT fuel cur → cur ≤ x ∧ x < endT := by
  intro fuel
  induction fuel with
  | zero => intro cur x h; simp [halfHourStepsGo] at h
  | succ n ih =>
    intro cur x h
    rw [halfHourStepsGo] at h
    by_cases hlt : cur < endT
    · rw [if_pos hlt] at h
      rcases List.mem_cons.mp h with rfl | h
      · exact ⟨le_refl x, hlt⟩
      · have := ih h
        omega
    · rw [if_neg hlt] at h
      simp at h

theorem halfHourStepsGo_pairwise (endT : Int) : ∀ (fuel : Nat) (cur : Int),
    (halfHourStepsGo endT fuel cur).Pairwise (fun a b => a + 1800000 ≤ b) := by
  intro fuel
  induction fuel with
  | zero => intro cur; simp [halfHourStepsGo]
  | succ n ih =>
    intro cur
    rw [halfHourStepsGo]
    by_cases hlt : cur < endT
    · rw [if_pos hlt]
      refine List.Pairwise.cons ?_ (ih (cur + 1800000))
      intro x hx
      have := halfHourStepsGo_mem hx
      omega
    · rw [if_neg hlt]
      simp

theorem halfHourSteps_pairwise (cur endT : Int) :
    (halfHourSteps cur endT).Pairwise (fun a b => a + 1800000 ≤ b) :=
  halfHourStepsGo_pairwise endT _ cur

theorem rangeModeSlots_pairwise (sr er d : Int) (appts : List AppointmentRecord) :
    (rangeModeSlots sr er d appts).Pairwise (fun a b => a + 1800000 ≤ b) := by
  unfold rangeModeSlots
  exact List.Pairwise.sublist ((List.filter_sublist _).trans (List.filter_sublist _))
    (halfHourSteps_pairwise sr er)

theorem rangeModeSlots_mem {sr er d s : Int} {appts : List AppointmentRecord}
    (h : s ∈ rangeModeSlots sr er d appts) :
    0 < (getShopHourAndDay s).2 ∧ (getShopHourAndDay s).2 < 6 ∧
      9 ≤ (getShopHourAndDay s).1 ∧ (getShopHourAndDay s).1 < 17 := by
  unfold rangeModeSlots at h
  have h1 := (List.mem_filter.mp h).1
  have h2 := (List.mem_filter.mp h1).2
  simpa using h2

/-- C7: for every range query, the slots emitted by the range-mode
`/check-availability` handlers (both the server.js variant and the part_000
variant) are chronologically ordered with consecutive slots at least the
30-minute step apart, and every emitted slot's shop-local weekday is in
Monday..Friday with hour in [9, 17). -/
theorem spec_c7 (startRange endRange durationMinutes : Int) (store : List AppointmentRecord) :
    ((checkAvailabilityServer startRange endRange durationMinutes store).Pairwise
        (fun a b => a + 1800000 ≤ b) ∧
      (checkAvailabilityPart000 startRange endRange store).Pairwise
        (fun a b => a + 1800000 ≤ b)) ∧
    (∀ s ∈ checkAvailabilityServer startRange endRange durationMinutes store,
      0 < (getShopHourAndDay s).2 ∧ (getShopHourAndDay s).2 < 6 ∧
        9 ≤ (getShopHourAndDay s).1 ∧ (getShopHourAndDay s).1 < 17) ∧
    (∀ s ∈ checkAvailabilityPart000 startRange endRange store,
      0 < (getShopHourAndDay s).2 ∧ (getShopHourAndDay s).2 < 6 ∧
        9 ≤ (getShopHourAndDay s).1 ∧ (getShopHourAndDay s).1 < 17) := by
  refine ⟨⟨rangeModeSlots_pairwise _ _ _ _, rangeModeSlots_pairwise _ _ _ _⟩, ?_, ?_⟩ <;>
    exact fun s hs => rangeModeSlots_mem hs

theorem spec_c7_witness :
    ((1764090000000 : Int) ∈ checkAvailabilityServer 1764090000000 1764093600000 30 []) ∧
      (0 < (getShopHourAndDay 1764090000000).2 ∧ (getShopHourAndDay 1764090000000).2 < 6 ∧
        9 ≤ (getShopHourAndDay 1764090000000).1 ∧ (getShopHourAndDay 1764090000000).1 < 17) :=
  ⟨by decide, (spec_c7 1764090000000 1764093600000 30 []).2.1 1764090000000 (by decide)⟩

/-- C6: every slot emitted by the single-day `/check-availability` handler has
the same shop-local calendar date as the reference instant, passes the
business-hours test for that date's weekday, and, when the weekday is Saturday
(the day carrying the lead-time rule), starts at least 24 hours after now. -/
theorem spec_c6 (currentNow startRange : Int) (store : List AppointmentRecord) :
    ∀ s ∈ checkAvailabilityPart001 currentNow startRange store,
      ((getShopTimeDetails s).year, (getShopTimeDetails s).month, (getShopTimeDetails s).day) =
        ((getShopTimeDetails startRange).year, (getShopTimeDetails startRange).month,
          (getShopTimeDetails startRange).day) ∧
      (businessHoursPart001 (getShopTimeDetails s)).1 = true ∧
      (businessHoursPart001 (getShopTimeDetails s)).2.1 ≤
        (getShopTimeDetails s).hour * 60 + (getShopTimeDetails s).minute ∧
      (getShopTimeDetails s).hour * 60 + (getShopTimeDetails s).minute <
        (businessHoursPart001 (getShopTimeDetails s)).2.2 ∧
      ((getShopTimeDetails s).weekday = 6 → 86400000 ≤ s - currentNow) := by
  intro s hs
  simp only [checkAvailabilityPart001] at hs
  have h2 := (List.mem_filter.mp hs).2
  simp only [Bool.and_eq_true, Bool.not_eq_true', Bool.and_eq_false_iff,
    decide_eq_true_eq, decide_eq_false_iff_not] at h2
  obtain ⟨⟨⟨hdate, hopen, hmins⟩, hsat⟩, _⟩ := h2
  refine ⟨hdate, hopen, hmins.1, hmins.2, ?_⟩
  intro hw
  rcases hsat with h | h
  · exact absurd hw h
  · omega

theorem spec_c6_witness :
    ((1764086400000 : Int) ∈ checkAvailabilityPart001 1764000000000 1764064800000 []) ∧
      ((getShopTimeDetails 1764086400000).year, (getShopTimeDetails 1764086400000).month,
          (getShopTimeDetails 1764086400000).day) =
        ((getShopTimeDetails 1764064800000).year, (getShopTimeDetails 1764064800000).month,
          (getShopTimeDetails 1764064800000).day) ∧
      (businessHoursPart001 (getShopTimeDetails 1764086400000)).1 = true ∧
      (businessHoursPart001 (getShopTimeDetails 1764086400000)).2.1 ≤
        (getShopTimeDetails 1764086400000).hour * 60 + (getShopTimeDetails 1764086400000).minute ∧
      (getShopTimeDetails 1764086400000).hour * 60 + (getShopTimeDetails 1764086400000).minute <
        (businessHoursPart001 (getShopTimeDetails 1764086400000)).2.2 ∧
      ((getShopTimeDetails 1764086400000).weekday = 6 → 86400000 ≤ (1764086400000 : Int) - 1764000000000) :=
  ⟨by decide, spec_c6 1764000000000 1764064800000 [] 1764086400000 (by decide)⟩

/-- The decision of `checkSlotAvailability`, characterized: provided the
remote page limit of 100 does not truncate the fetch, the slot is reported
taken exactly when some stored appointment is at the location, has its start
inside the fetch window, is not Canceled, is not skipped by the (truthy,
matching) exclusion guard, and overlaps `[start, endT)` half-open. -/
theorem checkSlotAvailability_eq_false_iff (start endT : Int) (excl : Option String)
    (store : List AppointmentRecord)
    (hlimit : (store.filter (fun a =>
      decide (a.locationId = LOCATION_ID ∧ start - 86400000 ≤ a.startDate ∧
        a.startDate ≤ start + 86400000 ∧ a.status ≠ "Canceled"))).length ≤ 100) :
    checkSlotAvailability start endT excl store = false ↔
      ∃ a ∈ store, a.locationId = LOCATION_ID ∧ start - 86400000 ≤ a.startDate ∧
        a.startDate ≤ start + 86400000 ∧ a.status ≠ "Canceled" ∧
        (∀ e, excl = some e → ¬(e ≠ "" ∧ a.id = e)) ∧
        a.startDate < endT ∧ start < a.endDate := by
  have hpred : ∀ a : AppointmentRecord,
      ((let excluded := match excl with
          | some e => decide (e ≠ "" ∧ a.id = e)
          | none => false
        if excluded then false else decide (a.startDate < endT ∧ start < a.endDate)) = true) ↔
      ((∀ e, excl = some e → ¬(e ≠ "" ∧ a.id = e)) ∧ a.startDate < endT ∧ start < a.endDate) := by
    intro a
    cases excl with
    | none => simp
    | some e =>
      by_cases hx : e ≠ "" ∧ a.id = e
      · simp [hx]
      · simp [hx]
        exact fun _ _ he hid => hx ⟨he, hid⟩
  simp only [checkSlotAvailability]
  rw [List.take_of_length_le hlimit]
  constructor
  · intro h
    cases hfind : (store.filter (fun a =>
        decide (a.locationId = LOCATION_ID ∧ start - 86400000 ≤ a.startDate ∧
          a.startDate ≤ start + 86400000 ∧ a.status ≠ "Canceled"))).find? (fun a =>
        let excluded := match excl with
          | some e => decide (e ≠ "" ∧ a.id = e)
          | none => false
        if excluded then false else decide (a.startDate < endT ∧ start < a.endDate)) with
    | none => rw [hfind] at h; simp at h
    | some w =>
      have hw := List.find?_some hfind
      have hmem := List.mem_of_find?_eq_some hfind
      have hmem2 := List.mem_filter.mp hmem
      have hprops := of_decide_eq_true hmem2.2
      exact ⟨w, hmem2.1, hprops.1, hprops.2.1, hprops.2.2.1, hprops.2.2.2,
        ((hpred w).mp hw).1, ((hpred w).mp hw).2.1, ((hpred w).mp hw).2.2⟩
  · rintro ⟨a, hmem, hloc, hw1, hw2, hstat, hexcl, hov1, hov2⟩
    cases hfind : (store.filter (fun a =>
        decide (a.locationId = LOCATION_ID ∧ start - 86400000 ≤ a.startDate ∧
          a.startDate ≤ start + 86400000 ∧ a.status ≠ "Canceled"))).find? (fun a =>
        let excluded := match excl with
          | some e => decide (e ≠ "" ∧ a.id = e)
          | none => false
        if excluded then false else decide (a.startDate < endT ∧ start < a.endDate)) with
    | some w => rfl
    | none =>
      exfalso
      have hnone := List.find?_eq_none.mp hfind a
        (List.mem_filter.mpr ⟨hmem, decide_eq_true (by exact ⟨hloc, hw1, hw2, hstat⟩)⟩)
      exact hnone ((hpred a).mpr ⟨hexcl, hov1, hov2⟩)

/-- C2 counterexample: an appointment running from 25 hours before the
candidate to one hour after it overlaps the candidate `[10:00Z, 10:30Z)` on
2025-11-25 and is non-Canceled at the location, yet `checkSlotAvailability`
reports the slot free, because the fetch window filters on the appointment
start instant only: the claimed equivalence fails on this store. -/
theorem c2_counterexample :
    ¬(checkSlotAvailability 1764064800000 1764066600000 none
        [{ id := "a1", customerId := "c1", vehicleId := "v1", locationId := LOCATION_ID,
           name := "long job", startDate := 1763974800000, endDate := 1764068400000,
           status := "Scheduled" }] = false ↔
      ∃ a ∈ [{ id := "a1", customerId := "c1", vehicleId := "v1", locationId := LOCATION_ID,
               name := "long job", startDate := 1763974800000, endDate := 1764068400000,
               status := "Scheduled" : AppointmentRecord }],
        a.locationId = LOCATION_ID ∧ a.status ≠ "Canceled" ∧
          a.startDate < 1764066600000 ∧ 1764064800000 < a.endDate) := by
  decide

/-- C2 amended: the commit-time check is authoritative provided the window
restriction and page limit cannot hide an appointment: for candidate durations
of at most 24 hours, stores whose appointments each last at most 24 hours and
whose fetch result is not truncated by the limit of 100, and a non-empty
exclusion id if one is given, `checkSlotAvailability` reports a conflict iff
some non-Canceled, non-excluded appointment at the location overlaps the
candidate under the half-open predicate. -/
theorem spec_c2 (start dur : Int) (excl : Option String) (store : List AppointmentRecord)
    (hdur0 : 0 < dur) (hdur : dur ≤ 86400000)
    (hlen : ∀ a ∈ store, a.endDate ≤ a.startDate + 86400000)
    (hlimit : (store.filter (fun a =>
      decide (a.locationId = LOCATION_ID ∧ start - 86400000 ≤ a.startDate ∧
        a.startDate ≤ start + 86400000 ∧ a.status ≠ "Canceled"))).length ≤ 100)
    (hexcl : ∀ e, excl = some e → e ≠ "") :
    checkSlotAvailability start (start + dur) excl store = false ↔
      ∃ a ∈ store, a.locationId = LOCATION_ID ∧ a.status ≠ "Canceled" ∧
        (∀ e, excl = some e → a.id ≠ e) ∧
        a.startDate < start + dur ∧ start < a.endDate := by
  rw [checkSlotAvailability_eq_false_iff start (start + dur) excl store hlimit]
  constructor
  · rintro ⟨a, ha, hloc, hw1, hw2, hstat, hex, hov1, hov2⟩
    refine ⟨a, ha, hloc, hstat, ?_, hov1, hov2⟩
    intro e he hid
    exact hex e he ⟨hexcl e he, hid⟩
  · rintro ⟨a, ha, hloc, hstat, hex, hov1, hov2⟩
    have hb := hlen a ha
    refine ⟨a, ha, hloc, by omega, by omega, hstat, ?_, hov1, hov2⟩
    intro e he hc
    exact hex e he hc.2

theorem spec_c2_witness :
    ((0 : Int) < 1800000) ∧
      (checkSlotAvailability 1764064800000 1764066600000 none
          [{ id := "a1", customerId := "c1", vehicleId := "v1", locationId := LOCATION_ID,
             name := "existing", startDate := 1764064800000, endDate := 1764066600000,
             status := "Scheduled" }] = false ↔
        ∃ a ∈ [{ id := "a1", customerId := "c1", vehicleId := "v1", locationId := LOCATION_ID,
                 name := "existing", startDate := 1764064800000, endDate := 1764066600000,
                 status := "Scheduled" : AppointmentRecord }],
          a.locationId = LOCATION_ID ∧ a.status ≠ "Canceled" ∧
            (∀ e, (none : Option String) = some e → a.id ≠ e) ∧
            a.startDate < 1764066600000 ∧ 1764064800000 < a.endDate) :=
  ⟨by decide,
    spec_c2 1764064800000 1800000 none _ (by decide) (by decide)
      (by decide) (by decide) (fun e he => nomatch he)⟩

/-- C4 counterexample: an appointment whose remote id is the empty string is
found for the customer, yet rescheduling it to its own old time is rejected
with Conflict, because the exclusion guard
`excludeAppointmentId && appt.id === excludeAppointmentId` treats the falsy
empty id as no exclusion at all, so X conflicts with itself. -/
theorem c4_counterexample :
    (findAppointmentByDate "c1" 1764064800000
        [{ id := "", customerId := "c1", vehicleId := "v1", locationId := LOCATION_ID,
           name := "x", startDate := 1764064800000, endDate := 1764066600000,
           status := "Scheduled" }] =
      some { id := "", customerId := "c1", vehicleId := "v1", locationId := LOCATION_ID,
             name := "x", startDate := 1764064800000, endDate := 1764066600000,
             status := "Scheduled" }) ∧
    (updateAppointmentHandler "5551234567" 1764064800000 1764064800000
        ([{ id := "", customerId := "c1", vehicleId := "v1", locationId := LOCATION_ID,
            name := "x", startDate := 1764064800000, endDate := 1764066600000,
            status := "Scheduled" }],
         [{ id := "c1", firstName := "John", lastName := "Doe",
            phoneNumbers := ["+15551234567"] }])).1 = UpdateOutcome.conflict := by
  decide

/-- C4 amended: reschedule self-exclusion holds for every appointment X found
for the customer whose id is non-empty (the JavaScript exclusion guard treats
an empty id as absent): given the fetch is not truncated by the page limit,
the update flow reports Conflict exactly when some other appointment (id
different from X's) at the location, non-Canceled and with start inside the
fetch window, overlaps the new interval; in particular moving X onto its own
old time alone never conflicts, and the flow otherwise updates. -/
theorem spec_c4 (phone : String) (originalDate newDate : Int)
    (appts : List AppointmentRecord) (custs : List CustomerRecord)
    (customer : CustomerRecord) (X : AppointmentRecord)
    (hphone : phone ≠ "")
    (hcust : findCustomerByPhone phone custs = some customer)
    (happt : findAppointmentByDate customer.id originalDate appts = some X)
    (hid : X.id ≠ "")
    (hlimit : (appts.filter (fun a =>
      decide (a.locationId = LOCATION_ID ∧ newDate - 86400000 ≤ a.startDate ∧
        a.startDate ≤ newDate + 86400000 ∧ a.status ≠ "Canceled"))).length ≤ 100) :
    ((updateAppointmentHandler phone originalDate newDate (appts, custs)).1 =
        UpdateOutcome.conflict ∨
      (updateAppointmentHandler phone originalDate newDate (appts, custs)).1 =
        UpdateOutcome.updated) ∧
    ((updateAppointmentHandler phone originalDate newDate (appts, custs)).1 =
        UpdateOutcome.conflict ↔
      ∃ a ∈ appts, a.id ≠ X.id ∧ a.locationId = LOCATION_ID ∧ a.status ≠ "Canceled" ∧
        newDate - 86400000 ≤ a.startDate ∧ a.startDate ≤ newDate + 86400000 ∧
        a.startDate < newDate + 1800000 ∧ newDate < a.endDate) := by
  have hiff : checkSlotAvailability newDate (newDate + 1800000) (some X.id) appts = false ↔
      ∃ a ∈ appts, a.id ≠ X.id ∧ a.locationId = LOCATION_ID ∧ a.status ≠ "Canceled" ∧
        newDate - 86400000 ≤ a.startDate ∧ a.startDate ≤ newDate + 86400000 ∧
        a.startDate < newDate + 1800000 ∧ newDate < a.endDate := by
    rw [checkSlotAvailability_eq_false_iff newDate (newDate + 1800000) (some X.id) appts hlimit]
    constructor
    · rintro ⟨a, ha, hloc, hw1, hw2, hstat, hex, hov1, hov2⟩
      exact ⟨a, ha, fun h => hex X.id rfl ⟨hid, h⟩, hloc, hstat, hw1, hw2, hov1, hov2⟩
    · rintro ⟨a, ha, hne, hloc, hstat, hw1, hw2, hov1, hov2⟩
      refine ⟨a, ha, hloc, hw1, hw2, hstat, ?_, hov1, hov2⟩
      rintro e he ⟨hene, hide⟩
      cases he
      exact hne hide
  simp only [updateAppointmentHandler, if_neg hphone, hcust, happt]
  cases hcheck : checkSlotAvailability newDate (newDate + 1800000) (some X.id) appts with
  | true =>
    rw [hcheck] at hiff
    rw [if_pos rfl]
    refine ⟨Or.inr rfl, ?_⟩
    constructor
    · intro h; exact absurd h (by simp)
    · intro hex
      have hcontra : (true : Bool) = false := hiff.mpr hex
      exact absurd hcontra (by simp)
  | false =>
    rw [hcheck] at hiff
    rw [if_neg (by simp : ¬(false = true))]
    refine ⟨Or.inl rfl, ?_⟩
    constructor
    · intro _; exact hiff.mp rfl
    · intro _; rfl

/-- C3 counterexample: in the server.js `/check-availability` variant the
fetch carries no status filter, so a Canceled appointment occupying
`[17:00Z, 17:30Z)` on 2025-11-25 removes the 17:00Z candidate from the slot
list even though it is Canceled. -/
theorem c3_counterexample :
    ((1764090000000 : Int) ∈ checkAvailabilityServer 1764090000000 1764093600000 30 []) ∧
    ({ id := "a1", customerId := "c1", vehicleId := "v1", locationId := LOCATION_ID,
       name := "canceled", startDate := 1764090000000, endDate := 1764091800000,
       status := "Canceled" } : AppointmentRecord).status = "Canceled" ∧
    ((1764090000000 : Int) ∉ checkAvailabilityServer 1764090000000 1764093600000 30
      [{ id := "a1", customerId := "c1", vehicleId := "v1", locationId := LOCATION_ID,
         name := "canceled", startDate := 1764090000000, endDate := 1764091800000,
         status := "Canceled" }]) := by
  decide

/-- C3 amended: in every path that carries the `status != Canceled` fetch
filter -- the part_000 range-mode availability handler, the part_001
single-day handler, `checkSlotAvailability`, and the `/booking` conflict
check -- a Canceled appointment never changes the result; the server.js
`/check-availability` variant fetches without a status filter and is the
exception. -/
theorem spec_c3 (canceledA : AppointmentRecord) (ha : canceledA.status = "Canceled") :
    (∀ sr er store, checkAvailabilityPart000 sr er (canceledA :: store) =
      checkAvailabilityPart000 sr er store) ∧
    (∀ now sr store, checkAvailabilityPart001 now sr (canceledA :: store) =
      checkAvailabilityPart001 now sr store) ∧
    (∀ s e excl store, checkSlotAvailability s e excl (canceledA :: store) =
      checkSlotAvailability s e excl store) ∧
    (∀ req appts custs vehs, (bookingHandler req (canceledA :: appts, custs, vehs)).1 =
      (bookingHandler req (appts, custs, vehs)).1) := by
  refine ⟨?_, ?_, ?_, ?_⟩
  · intro sr er store
    simp [checkAvailabilityPart000, List.filter_cons, ha]
  · intro now sr store
    simp [checkAvailabilityPart001, List.filter_cons, ha]
  · intro s e excl store
    simp [checkSlotAvailability, List.filter_cons, ha]
  · intro req appts custs vehs
    simp only [bookingHandler]
    by_cases hval : req.phone = "" ∨ req.make = "" ∨ req.model = "" ∨
        req.title = "" ∨ req.name = ""
    · rw [if_pos hval, if_pos hval]
    · rw [if_neg hval, if_neg hval]
      have hfil : List.filter (fun x =>
          decide (x.locationId = LOCATION_ID ∧ req.startDate - 86400000 ≤ x.startDate ∧
            x.startDate ≤ req.startDate + 86400000 ∧ x.status ≠ "Canceled"))
          (canceledA :: appts) =
        List.filter (fun x =>
          decide (x.locationId = LOCATION_ID ∧ req.startDate - 86400000 ≤ x.startDate ∧
            x.startDate ≤ req.startDate + 86400000 ∧ x.status ≠ "Canceled")) appts := by
        rw [List.filter_cons]
        simp [ha]
      rw [hfil]
      cases hf : List.find?
          (fun a => decide (a.startDate < req.startDate + 1800000 ∧ req.startDate < a.endDate))
          (List.take 100 (List.filter (fun x =>
            decide (x.locationId = LOCATION_ID ∧ req.startDate - 86400000 ≤ x.startDate ∧
              x.startDate ≤ req.startDate + 86400000 ∧ x.status ≠ "Canceled")) appts)) with
      | some w => rfl
      | none => rfl

theorem spec_c3_witness :
    checkAvailabilityPart000 1764090000000 1764093600000
        ({ id := "a1", customerId := "c1", vehicleId := "v1", locationId := LOCATION_ID,
           name := "canceled", startDate := 1764090000000, endDate := 1764091800000,
           status := "Canceled" } :: []) =
      checkAvailabilityPart000 1764090000000 1764093600000 [] :=
  (spec_c3 ⟨"a1", "c1", "v1", LOCATION_ID, "canceled", 1764090000000, 1764091800000,
      "Canceled"⟩ (by decide)).1 1764090000000 1764093600000 []

theorem spec_c4_witness :
    (((updateAppointmentHandler "5551234567" 1764064800000 1764064800000
          ([apptA1], [custJohn])).1 = UpdateOutcome.conflict ∨
       (updateAppointmentHandler "5551234567" 1764064800000 1764064800000
          ([apptA1], [custJohn])).1 = UpdateOutcome.updated) ∧
      ((updateAppointmentHandler "5551234567" 1764064800000 1764064800000
          ([apptA1], [custJohn])).1 = UpdateOutcome.conflict ↔
        ∃ a ∈ [apptA1], a.id ≠ apptA1.id ∧ a.locationId = LOCATION_ID ∧
          a.status ≠ "Canceled" ∧ (1764064800000 : Int) - 86400000 ≤ a.startDate ∧
          a.startDate ≤ (1764064800000 : Int) + 86400000 ∧
          a.startDate < (1764064800000 : Int) + 1800000 ∧
          (1764064800000 : Int) < a.endDate)) :=
  spec_c4 "5551234567" 1764064800000 1764064800000 [apptA1] [custJohn] custJohn apptA1
    (by decide) (by decide) (by decide) (by decide) (by decide)

/-- C1: with a non-Canceled appointment occupying `[10:00Z, 10:30Z)` on
2025-11-25 at the location, a booking request for 10:15Z with the fixed
30-minute duration is rejected with Conflict and the appointment store is
unchanged, while a back-to-back request for 10:30Z is not reported as a
conflict: it is accepted and an appointment `[10:30Z, 11:00Z)` is created. -/
theorem spec_c1 (apptId custId vehId title stat : String)
    (custs : List CustomerRecord) (vehs : List VehicleRecord)
    (hstat : stat ≠ "Canceled") :
    (bookingHandler ⟨"5551234567", "Toyota", "Camry", "Oil change", "John Doe", 1764065700000⟩
        ([⟨apptId, custId, vehId, LOCATION_ID, title, 1764064800000, 1764066600000, stat⟩],
          custs, vehs) =
      (BookingOutcome.conflict,
        ([⟨apptId, custId, vehId, LOCATION_ID, title, 1764064800000, 1764066600000, stat⟩],
          custs, vehs))) ∧
    ((bookingHandler ⟨"5551234567", "Toyota", "Camry", "Oil change", "John Doe", 1764066600000⟩
        ([⟨apptId, custId, vehId, LOCATION_ID, title, 1764064800000, 1764066600000, stat⟩],
          custs, vehs)).1 = BookingOutcome.booked ∧
      ∃ newA : AppointmentRecord,
        (bookingHandler ⟨"5551234567", "Toyota", "Camry", "Oil change", "John Doe", 1764066600000⟩
          ([⟨apptId, custId, vehId, LOCATION_ID, title, 1764064800000, 1764066600000, stat⟩],
            custs, vehs)).2.1 =
          [⟨apptId, custId, vehId, LOCATION_ID, title, 1764064800000, 1764066600000, stat⟩, newA] ∧
        newA.startDate = 1764066600000 ∧ newA.endDate = 1764068400000 ∧
        newA.locationId = LOCATION_ID ∧ newA.status ≠ "Canceled") := by
  have hfil1 : List.filter (fun a : AppointmentRecord =>
      decide (a.locationId = LOCATION_ID ∧ (1764065700000 : Int) - 86400000 ≤ a.startDate ∧
        a.startDate ≤ (1764065700000 : Int) + 86400000 ∧ a.status ≠ "Canceled"))
      [⟨apptId, custId, vehId, LOCATION_ID, title, 1764064800000, 1764066600000, stat⟩] =
      [⟨apptId, custId, vehId, LOCATION_ID, title, 1764064800000, 1764066600000, stat⟩] := by
    simp [hstat]
  have hfil2 : List.filter (fun a : AppointmentRecord =>
      decide (a.locationId = LOCATION_ID ∧ (1764066600000 : Int) - 86400000 ≤ a.startDate ∧
        a.startDate ≤ (1764066600000 : Int) + 86400000 ∧ a.status ≠ "Canceled"))
      [⟨apptId, custId, vehId, LOCATION_ID, title, 1764064800000, 1764066600000, stat⟩] =
      [⟨apptId, custId, vehId, LOCATION_ID, title, 1764064800000, 1764066600000, stat⟩] := by
    simp [hstat]
  have hfind1 : List.find? (fun a : AppointmentRecord =>
      decide (a.startDate < (1764065700000 : Int) + 1800000 ∧ (1764065700000 : Int) < a.endDate))
      (List.take 100
        [⟨apptId, custId, vehId, LOCATION_ID, title, 1764064800000, 1764066600000, stat⟩]) =
      some ⟨apptId, custId, vehId, LOCATION_ID, title, 1764064800000, 1764066600000, stat⟩ := by
    rw [List.take_of_length_le (by simp)]
    simp [List.find?]
  have hfind2 : List.find? (fun a : AppointmentRecord =>
      decide (a.startDate < (1764066600000 : Int) + 1800000 ∧ (1764066600000 : Int) < a.endDate))
      (List.take 100
        [⟨apptId, custId, vehId, LOCATION_ID, title, 1764064800000, 1764066600000, stat⟩]) =
      none := by
    rw [List.take_of_length_le (by simp)]
    simp [List.find?]
  refine ⟨?_, ?_, ?_⟩
  · simp only [bookingHandler]
    rw [if_neg (by decide), hfil1, hfind1]
  · simp only [bookingHandler]
    rw [if_neg (by decide), hfil2, hfind2]
  · simp only [bookingHandler]
    rw [if_neg (by decide), hfil2, hfind2]
    exact ⟨_, rfl, rfl, by norm_num, rfl, by show "Scheduled" ≠ "Canceled"; decide⟩

theorem spec_c1_witness :
    bookingHandler ⟨"5551234567", "Toyota", "Camry", "Oil change", "John Doe", 1764065700000⟩
        ([⟨"a1", "c1", "v1", LOCATION_ID, "tire", 1764064800000, 1764066600000, "Scheduled"⟩],
          [], []) =
      (BookingOutcome.conflict,
        ([⟨"a1", "c1", "v1", LOCATION_ID, "tire", 1764064800000, 1764066600000, "Scheduled"⟩],
          [], [])) :=
  (spec_c1 "a1" "c1" "v1" "tire" "Scheduled" [] [] (by decide)).1

theorem findCustomerByPhone_append_singleton (phone : String) (store : List CustomerRecord)
    (c : CustomerRecord) (h : findCustomerByPhone phone store = none)
    (hc : normalizeToE164 phone ∈ c.phoneNumbers) :
    findCustomerByPhone phone (store ++ [c]) = some c := by
  simp only [findCustomerByPhone, searchCustomerByPhone] at h ⊢
  rw [List.filter_append, List.head?_eq_none_iff.mp h]
  simp [hc]

theorem findOrCreateCustomer_of_none (name phone : String) (store : List CustomerRecord)
    (h : findCustomerByPhone phone store = none) :
    ∃ c, findOrCreateCustomer name phone store = ((c, true), store ++ [c]) ∧
      normalizeToE164 phone ∈ c.phoneNumbers := by
  refine ⟨⟨"cust-" ++ toString store.length,
    if (name.splitOn " ").headD "" = "" then "N/A" else (name.splitOn " ").headD "",
    String.intercalate " " (name.splitOn " ").tail,
    [normalizeToE164 phone]⟩, ?_, ?_⟩
  · simp only [findOrCreateCustomer, h]
  · simp

/-- C5: customer resolution is idempotent.  If the first lookup by canonical
phone finds nothing, calling `findOrCreateCustomer` twice with the same name
and phone creates once and then finds: `wasCreated` is `true` then `false`,
both calls return the same customer id, and the second call leaves the store
unchanged.  And whenever a customer is found by canonical phone, the record is
returned unmodified with `wasCreated = false` and the store untouched (no
create issued). -/
theorem spec_c5 :
    (∀ (name phone : String) (store : List CustomerRecord),
      findCustomerByPhone phone store = none →
        (findOrCreateCustomer name phone store).1.2 = true ∧
        (findOrCreateCustomer name phone
            (findOrCreateCustomer name phone store).2).1.2 = false ∧
        (findOrCreateCustomer name phone
            (findOrCreateCustomer name phone store).2).1.1.id =
          (findOrCreateCustomer name phone store).1.1.id ∧
        (findOrCreateCustomer name phone
            (findOrCreateCustomer name phone store).2).2 =
          (findOrCreateCustomer name phone store).2) ∧
    (∀ (name phone : String) (store : List CustomerRecord) (c : CustomerRecord),
      findCustomerByPhone phone store = some c →
        findOrCreateCustomer name phone store = ((c, false), store)) := by
  constructor
  · intro name phone store h
    obtain ⟨c, hc, hmem⟩ := findOrCreateCustomer_of_none name phone store h
    have h2 := findCustomerByPhone_append_singleton phone store c h hmem
    rw [hc]
    simp only [findOrCreateCustomer, h2]
    simp
  · intro name phone store c h
    simp only [findOrCreateCustomer, h]

theorem spec_c5_witness :
    (findOrCreateCustomer "John Doe" "555-123-4567" []).1.2 = true ∧
    (findOrCreateCustomer "John Doe" "555-123-4567"
        (findOrCreateCustomer "John Doe" "555-123-4567" []).2).1.2 = false ∧
    (findOrCreateCustomer "John Doe" "555-123-4567"
        (findOrCreateCustomer "John Doe" "555-123-4567" []).2).1.1.id =
      (findOrCreateCustomer "John Doe" "555-123-4567" []).1.1.id ∧
    (findOrCreateCustomer "John Doe" "555-123-4567"
        (findOrCreateCustomer "John Doe" "555-123-4567" []).2).2 =
      (findOrCreateCustomer "John Doe" "555-123-4567" []).2 :=
  spec_c5.1 "John Doe" "555-123-4567" [] (by decide)

theorem isFuzzyMatch_iff (a b : String) :
    isFuzzyMatch a b = true ↔
      (a ≠ "" ∧ b ≠ "" ∧ (jsTrim (jsToLowerCase a) = jsTrim (jsToLowerCase b) ∨
        levSpec (jsTrim (jsToLowerCase a)).data (jsTrim (jsToLowerCase b)).data ≤
          min (jsTrim (jsToLowerCase a)).length (jsTrim (jsToLowerCase b)).length / 3)) := by
  simp only [isFuzzyMatch]
  by_cases ha : a = ""
  · simp [ha]
  by_cases hb : b = ""
  · simp [ha, hb]
  rw [if_neg (by simp [ha, hb])]
  by_cases heq : jsTrim (jsToLowerCase a) = jsTrim (jsToLowerCase b)
  · simp [ha, hb, heq]
  · rw [if_neg heq, levenshteinDistance_eq_levSpec]
    simp [ha, hb, heq]

/-- C8: the fuzzy matcher accepts exactly per the scaled edit-distance rule:
`isFuzzyMatch a b` is true iff the lowercased, trimmed forms are equal or
their classic Levenshtein distance is at most `floor(min(len, len) / 3)` of
the normalized lengths, empty inputs never matching; consequently every
non-empty string matches itself, "Camry" matches "Camary", and "Kia" does not
match "Audi". -/
theorem spec_c8 :
    (∀ a b : String, isFuzzyMatch a b = true ↔
      (a ≠ "" ∧ b ≠ "" ∧ (jsTrim (jsToLowerCase a) = jsTrim (jsToLowerCase b) ∨
        levSpec (jsTrim (jsToLowerCase a)).data (jsTrim (jsToLowerCase b)).data ≤
          min (jsTrim (jsToLowerCase a)).length (jsTrim (jsToLowerCase b)).length / 3))) ∧
    (∀ s : String, s ≠ "" → isFuzzyMatch s s = true) ∧
    isFuzzyMatch "Camry" "Camary" = true ∧
    isFuzzyMatch "Kia" "Audi" = false := by
  refine ⟨isFuzzyMatch_iff, ?_, by decide, by decide⟩
  intro s hs
  simp only [isFuzzyMatch]
  rw [if_neg (by simp [hs])]
  simp

theorem spec_c8_witness : isFuzzyMatch "Toyota" "Toyota" = true :=
  spec_c8.2.1 "Toyota" (by decide)

/-- C9 counterexample: the empty raw string is mapped to `""`, not to the
`"+"`-prefixed digit string the spec's rule 3 dictates, because the handler
short-circuits on a falsy input before the rules run. -/
theorem c9_counterexample :
    normalizeToE164 "" = "" ∧ normalizeRulesSpec "" = "+" ∧
      normalizeToE164 "" ≠ normalizeRulesSpec "" := by
  decide

/-- C9 amended: for every non-empty raw string the implementation agrees with
the spec's three ordered E.164 rules (the two trailing JavaScript branches
both prefix `"+"`, matching rule 3); the empty string alone maps to `""`
instead.  The claim's concrete mappings hold. -/
theorem spec_c9 :
    (∀ phone : String, phone ≠ "" → normalizeToE164 phone = normalizeRulesSpec phone) ∧
    normalizeToE164 "" = "" ∧
    normalizeToE164 "5551234567" = "+15551234567" ∧
    normalizeToE164 "15551234567" = "+15551234567" := by
  refine ⟨?_, by decide, by decide, by decide⟩
  intro phone h
  simp only [normalizeToE164, normalizeRulesSpec, if_neg h]
  by_cases h10 : (String.mk (phone.data.filter Char.isDigit)).length = 10
  · rw [if_pos h10, if_pos h10]
  rw [if_neg h10, if_neg h10]
  by_cases h11 : (String.mk (phone.data.filter Char.isDigit)).length = 11 ∧
      jsStartsWith (String.mk (phone.data.filter Char.isDigit)) "1" = true
  · rw [if_pos h11, if_pos h11]
  rw [if_neg h11, if_neg h11]
  by_cases hplus : jsStartsWith (jsTrim phone) "+" = true
  · rw [if_pos hplus]
  · rw [if_neg hplus]

theorem spec_c9_witness :
    normalizeToE164 "+44 20 7946 0958" = normalizeRulesSpec "+44 20 7946 0958" :=
  spec_c9.1 "+44 20 7946 0958" (by decide)

/-- C10: when the shorter lowercased, trimmed input has length below 3 the
tolerance floors to zero, so the fuzzy matcher accepts exactly the pairs whose
normalized forms are identical; and because the empty-input guard inspects the
raw strings before trimming, two distinct non-empty whitespace-only strings
match each other. -/
theorem spec_c10 :
    (∀ a b : String, a ≠ "" → b ≠ "" →
      min (jsTrim (jsToLowerCase a)).length (jsTrim (jsToLowerCase b)).length < 3 →
      (isFuzzyMatch a b = true ↔ jsTrim (jsToLowerCase a) = jsTrim (jsToLowerCase b))) ∧
    isFuzzyMatch " " "  " = true := by
  refine ⟨?_, by decide⟩
  intro a b ha hb hshort
  rw [isFuzzyMatch_iff]
  constructor
  · rintro ⟨-, -, h | hlev⟩
    · exact h
    · have h0 : min (jsTrim (jsToLowerCase a)).length (jsTrim (jsToLowerCase b)).length / 3 = 0 := by
        omega
      rw [h0, Nat.le_zero] at hlev
      have hdata := (levSpec_eq_zero_iff _ _).mp hlev
      cases hj : jsTrim (jsToLowerCase a) with
      | mk da =>
        cases hk : jsTrim (jsToLowerCase b) with
        | mk db =>
          rw [hj, hk] at hdata
          simp at hdata
          rw [hdata]
  · intro h
    exact ⟨ha, hb, Or.inl h⟩

theorem spec_c10_witness :
    isFuzzyMatch "ab" "ab" = true ↔ jsTrim (jsToLowerCase "ab") = jsTrim (jsToLowerCase "ab") :=
  spec_c10.1 "ab" "ab" (by decide) (by decide) (by decide)

